import Mathlib

/-!
Verification of `src/bridge_state.rs` (finality-grandpa): a point-to-point
state-bridging primitive.  One `Bridged<H>` cell holds a snapshot behind a
reader/writer lock (`inner: RwLock<RoundState<H>>`) together with a single-slot
wake registration (`task: AtomicTask`).  `PriorView::update` overwrites the
snapshot and notifies the registered waiter; `LatterView::get` registers the
calling task as waiter and then reads the snapshot; `bridge_state` allocates
one shared cell and returns the two views.

The snapshot type `RoundState<H>` is defined outside this file (`round.rs`)
and is opaque to the core, which only stores and returns whole snapshots; it
is modelled as a type parameter `S`.  The waiter slot (`AtomicTask` from the
futures crate, an external collaborator) is modelled from the spec: a
thread-safe single-slot mailbox holding zero or one pending wake target,
where registering overwrites any prior target and notifying wakes the current
target if present (clearing the slot) and otherwise is a no-op.  Tasks are
modelled as a type parameter `T`.

Because the claims of interest include step-ordering properties (register
before read; write, release, then notify), each public operation is embedded
in two layers: a list of primitive micro-operations transcribing the Rust
statement sequence, and an executable semantics `execOp`/`execOps` giving the
state transformation and the wake effects of running those micro-operations.
-/

namespace BridgeState

variable {S T : Type}

/-- The shared `Bridged<H>` cell: `inner` is the snapshot stored behind the
reader/writer lock, `task` the single-slot wake registration (`none` when no
waiter is registered, `some t` when task `t` is the pending waiter). -/
structure CellState (S T : Type) where
  inner : S
  task : Option T
deriving DecidableEq, Repr

/-- `Bridged::new` wraps the locked snapshot together with a fresh
`AtomicTask::new()`, i.e. an empty waiter slot. -/
def Bridged.new (inner : S) : CellState S T :=
  { inner := inner, task := none }

/-- Primitive steps the two public operations decompose into:
taking and releasing the write lock, storing a snapshot, notifying the waiter
slot, registering the current task, and taking the read lock. -/
inductive MicroOp (S T : Type) where
  | acquireWrite
  | storeSnapshot (v : S)
  | releaseWrite
  | notifyTask
  | registerTask (t : T)
  | acquireRead
deriving DecidableEq, Repr

/-- Observable effect of a micro-operation: some task is woken (scheduled for
resumption). -/
inductive Effect (T : Type) where
  | wake (t : T)
deriving DecidableEq, Repr

/-- Executable semantics of one micro-operation on the shared cell, returning
the new cell state and the wake effects produced.  Lock acquisition and
release do not change the logical cell contents; `storeSnapshot` replaces the
snapshot unconditionally; `notifyTask` wakes and clears the registered waiter
if present; `registerTask` overwrites the waiter slot (last registration
wins). -/
def execOp (s : CellState S T) : MicroOp S T → CellState S T × List (Effect T)
  | .acquireWrite => (s, [])
  | .storeSnapshot v => ({ s with inner := v }, [])
  | .releaseWrite => (s, [])
  | .notifyTask =>
      match s.task with
      | some t => ({ s with task := none }, [Effect.wake t])
      | none => (s, [])
  | .registerTask t => ({ s with task := some t }, [])
  | .acquireRead => (s, [])

/-- Run a list of micro-operations in order, collecting effects. -/
def execOps (s : CellState S T) : List (MicroOp S T) → CellState S T × List (Effect T)
  | [] => (s, [])
  | op :: ops =>
      let p := execOp s op
      let q := execOps p.fst ops
      (q.fst, p.snd ++ q.snd)

/-- Micro-operation trace of `PriorView::update(new)`, transcribing
`*self.0.inner.write() = new; self.0.task.notify();`: take the write lock,
store `new`, drop the guard, then notify the waiter slot. -/
def updateOps (new : S) : List (MicroOp S T) :=
  [.acquireWrite, .storeSnapshot new, .releaseWrite, .notifyTask]

/-- `PriorView::update`: run the update trace, returning the new cell state
and the wake effects. -/
def PriorView.update (s : CellState S T) (new : S) : CellState S T × List (Effect T) :=
  execOps s (updateOps new)

/-- Micro-operation trace of `LatterView::get`, transcribing
`self.0.task.register(); self.0.inner.read()`: register the calling task `t`
as the pending waiter, then take the read lock. -/
def getOps (t : T) : List (MicroOp S T) :=
  [.registerTask t, .acquireRead]

/-- `LatterView::get` for calling task `t`: run the get trace and return the
new cell state together with the snapshot visible through the returned read
guard. -/
def LatterView.get (s : CellState S T) (t : T) : CellState S T × S :=
  let p := execOps s (getOps t)
  (p.fst, p.fst.inner)

/-- Result of `bridge_state`: the two views are `Arc` clones of one shared
allocation, modelled as indices into the list of cells allocated by the
call. -/
structure AllocResult (S T : Type) where
  prior : Nat
  latter : Nat
  cells : List (CellState S T)
deriving Repr

/-- `bridge_state(initial)`: allocate one `Bridged` cell seeded with
`initial` (`Arc::new(Bridged::new(RwLock::new(initial)))`) and hand the same
allocation to the prior view and the latter view. -/
def bridge_state (initial : S) : AllocResult S T :=
  { prior := 0, latter := 0, cells := [Bridged.new initial] }

/-- A sequence of producer updates with no interleaved reads: fold
`PriorView.update` over the list of snapshots. -/
def updateSeq (s : CellState S T) : List S → CellState S T
  | [] => s
  | v :: vs => updateSeq (PriorView.update s v).fst vs

/-- A sequence of consumer reads with no interleaved updates: run
`LatterView.get` for each calling task in turn and collect the returned
snapshots. -/
def getSeq (s : CellState S T) : List T → List S
  | [] => []
  | t :: ts =>
      let p := LatterView.get s t
      p.snd :: getSeq p.fst ts

/- ## Helper lemmas -/

/-- `update` stores `new` in the snapshot slot, whatever the previous cell
contents. -/
theorem update_fst_inner (s : CellState S T) (v : S) :
    (PriorView.update s v).fst.inner = v := by
  cases h : s.task <;>
    simp [PriorView.update, updateOps, execOps, execOp, h]

/-- `get` returns exactly the snapshot currently stored in the cell. -/
theorem get_snd (s : CellState S T) (t : T) :
    (LatterView.get s t).snd = s.inner := rfl

/-- `get` leaves the snapshot slot unchanged and records the caller in the
waiter slot. -/
theorem get_fst (s : CellState S T) (t : T) :
    (LatterView.get s t).fst = { s with task := some t } := rfl

/-- A read sequence with no interleaved updates returns the stored snapshot
every time. -/
theorem getSeq_const (s : CellState S T) (ts : List T) :
    getSeq s ts = ts.map (fun _ => s.inner) := by
  induction ts generalizing s with
  | nil => rfl
  | cons t ts ih =>
      simp only [getSeq, get_snd, get_fst, List.map_cons, List.cons.injEq]
      exact ⟨trivial, by simpa using ih { s with task := some t }⟩

/-- After a nonempty update sequence the stored snapshot is the last value
pushed. -/
theorem updateSeq_inner (s : CellState S T) (v : S) (vs : List S) :
    (updateSeq s (v :: vs)).inner = (v :: vs).getLast (by simp) := by
  induction vs generalizing s v with
  | nil => simpa [updateSeq] using update_fst_inner s v
  | cons w vs ih =>
      rw [updateSeq]
      rw [ih (PriorView.update s v).fst w]
      simp [List.getLast_cons]

/- ## Claims -/

/-- Claim C1.  Visibility / update postcondition: for every snapshot `v`,
after `update(v)` returns the cell's stored snapshot equals `v`, and a
subsequent `get()` with no intervening update returns a handle whose value
equals `v`. -/
theorem update_visibility (s : CellState S T) (v : S) (t : T) :
    (PriorView.update s v).fst.inner = v ∧
    (LatterView.get (PriorView.update s v).fst t).snd = v := by
  refine ⟨update_fst_inner s v, ?_⟩
  rw [get_snd]
  exact update_fst_inner s v

/-- Claim C2.  Last-write-wins: after a sequence of updates `v1, …, vn` with
no interleaved reads, the next `get()` returns `vn`; each update fully
overwrites the previous snapshot with no history or queueing. -/
theorem last_write_wins (s : CellState S T) (vs : List S) (t : T)
    (h : vs ≠ []) :
    (LatterView.get (updateSeq s vs) t).snd = vs.getLast h := by
  match vs with
  | v :: vs =>
      rw [get_snd]
      exact updateSeq_inner s v vs

/-- Witness for C2: pushing the updates 1, 2, 3 into a bridge with initial
snapshot 0 and then reading yields 3, the last write. -/
theorem last_write_wins_witness :
    ([1, 2, 3] : List Nat) ≠ [] ∧
    (LatterView.get (updateSeq (Bridged.new 0 : CellState Nat Nat) [1, 2, 3]) 0).snd
      = ([1, 2, 3] : List Nat).getLast (by decide) :=
  ⟨by decide, last_write_wins (Bridged.new 0) [1, 2, 3] 0 (by decide)⟩

/-- Claim C3.  Register-before-read ordering: in the micro-operation trace of
`get()`, every acquisition of read access to the snapshot is strictly
preceded by the registration of the calling task as the pending waiter, so
the snapshot is never consulted before registration has completed. -/
theorem get_registers_before_read (t : T) (j : Nat)
    (h : (getOps (S := S) t)[j]? = some MicroOp.acquireRead) :
    ∃ i, i < j ∧ (getOps (S := S) t)[i]? = some (MicroOp.registerTask t) := by
  match j with
  | 0 => simp [getOps] at h
  | 1 => exact ⟨0, by omega, rfl⟩
  | n + 2 => simp [getOps] at h

/-- Witness for C3: in the concrete trace of `get` for task 0 over natural
snapshots, read-lock acquisition sits at index 1 and registration at
index 0. -/
theorem get_registers_before_read_witness :
    ∃ i, i < 1 ∧ (getOps (S := Nat) (0 : Nat))[i]? = some (MicroOp.registerTask 0) :=
  get_registers_before_read 0 1 rfl

/-- Claim C4.  Update step order: `update(new)` takes exclusive access,
replaces the stored snapshot unconditionally (for every previous cell state
the resulting snapshot is `new`), releases exclusive access, and only then
signals the wake slot — the trace is exactly acquire, store, release,
notify. -/
theorem update_step_order (s : CellState S T) (v : S) :
    (PriorView.update s v).fst.inner = v ∧
    (updateOps (T := T) v).length = 4 ∧
    (updateOps (T := T) v)[0]? = some MicroOp.acquireWrite ∧
    (updateOps (T := T) v)[1]? = some (MicroOp.storeSnapshot v) ∧
    (updateOps (T := T) v)[2]? = some MicroOp.releaseWrite ∧
    (updateOps (T := T) v)[3]? = some MicroOp.notifyTask :=
  ⟨update_fst_inner s v, rfl, rfl, rfl, rfl, rfl⟩

/-- Claim C5.  No-update stability: `bridge_state(initial)` allocates a cell
seeded with `initial`, and if no update is ever issued, every `get()` in any
read sequence returns the original `initial` snapshot. -/
theorem no_update_stability (initial : S) (ts : List T) :
    (bridge_state (T := T) initial).cells = [Bridged.new initial] ∧
    getSeq (Bridged.new initial : CellState S T) ts = ts.map (fun _ => initial) :=
  ⟨rfl, getSeq_const (Bridged.new initial) ts⟩

/-- Claim C6.  Totality of the API: `update`, `get`, waiter registration and
bridge construction are embedded as total functions — for every cell state,
snapshot and task they return a result, with no error value, no failing
branch, and no inspection of the snapshot's contents (the snapshot type is a
bare parameter the operations cannot examine). -/
theorem api_total (s : CellState S T) (v : S) (t : T) (i : S) :
    (∃ r : CellState S T × List (Effect T), PriorView.update s v = r) ∧
    (∃ r : CellState S T × S, LatterView.get s t = r) ∧
    (∃ r : CellState S T × List (Effect T), execOp s (MicroOp.registerTask t) = r) ∧
    (∃ r : AllocResult S T, bridge_state i = r) :=
  ⟨⟨_, rfl⟩, ⟨_, rfl⟩, ⟨_, rfl⟩, ⟨_, rfl⟩⟩

/-- Claim C7.  Wake liveness: if the consumer registers as waiter via
`get()` and the producer subsequently calls `update(v)`, the consumer's task
is woken at least once — the update's effect list contains a wake for that
task. -/
theorem wake_liveness (s : CellState S T) (t : T) (v : S) :
    Effect.wake t ∈ (PriorView.update (LatterView.get s t).fst v).snd := by
  rw [get_fst]
  simp [PriorView.update, updateOps, execOps, execOp]

/-- Claim C8.  No ordering precondition on update: even when the new
snapshot is strictly earlier than the stored one under the caller's order,
`update` still replaces the stored snapshot with it — the core performs no
monotonicity check or comparison against the previous value. -/
theorem update_no_order_check [Preorder S] (s : CellState S T) (v : S)
    (h : v < s.inner) :
    (PriorView.update s v).fst.inner = v :=
  update_fst_inner s v

/-- Witness for C8: a cell storing 5 may be updated with the strictly
smaller snapshot 3, and afterwards it stores 3. -/
theorem update_no_order_check_witness :
    (3 : Nat) < 5 ∧
    (PriorView.update ({ inner := 5, task := none } : CellState Nat Nat) 3).fst.inner = 3 :=
  ⟨by decide, update_no_order_check { inner := 5, task := none } 3 (by decide)⟩

/-- Claim C9.  Constructor contract: `bridge_state(initial)` allocates
exactly one shared cell, seeded with `initial` and with the waiter slot
unregistered, and both returned views point at that same single
allocation. -/
theorem bridge_constructor_contract (initial : S) :
    (bridge_state (T := T) initial).prior = (bridge_state (T := T) initial).latter ∧
    (bridge_state (T := T) initial).cells.length = 1 ∧
    (bridge_state (T := T) initial).cells
      = [{ inner := initial, task := none }] :=
  ⟨rfl, rfl, rfl⟩

/-- Claim C10.  Frame property of `get()`: a call to `get` changes only the
waiter slot of the shared cell and leaves the stored snapshot unchanged, so
two consecutive `get()` calls with no intervening update return equal
snapshot values. -/
theorem get_frame (s : CellState S T) (t1 t2 : T) :
    (LatterView.get s t1).fst.inner = s.inner ∧
    (LatterView.get s t1).fst.task = some t1 ∧
    (LatterView.get (LatterView.get s t1).fst t2).snd = (LatterView.get s t1).snd :=
  ⟨rfl, rfl, rfl⟩

end BridgeState
